import Mathlib

/-! MinecraftVersion: descriptor, patch cache resolver and apply-to-profile.

A shallow embedding of `api/logic/minecraft/MinecraftVersion.cpp`.

* The object's fields become a structure `MinecraftVersion`; every member
  function that mutates the object returns the updated object next to its
  value (explicit state passing).
* The file system is an input of each operation: the cache file is either
  absent, or present with a modification time and the outcome the parser has
  on it. Every query the code makes on it is recorded, in order, in a query
  log, so that "is the parser invoked" and "is the disk touched" are
  statements about the log.
* The profile only receives calls; it is modelled by the sequence of calls it
  has received.
* `QObject::tr` is the identity (untranslated catalogue) and
  `QString("..%1..").arg(x)` is the text with `x` in the place of `%1`.
-/

namespace MultiMC

/-! ## Types declared in headers -/

/-- Modelled from the spec: the `VersionSource` enumeration (its header is not
part of the sources): the closed set `Builtin | Local | Remote | Custom`. -/
inductive VersionSource where
  | Builtin
  | Local
  | Remote
  | Custom
  deriving DecidableEq, Repr

/-- Modelled from the spec: `ProblemSeverity`, one of `None, Warning, Error`,
totally ordered (header not part of the sources). -/
inductive ProblemSeverity where
  | PROBLEM_NONE
  | PROBLEM_WARNING
  | PROBLEM_ERROR
  deriving DecidableEq, Repr

/-- Position of a severity in the total order `None < Warning < Error`. -/
def ProblemSeverity.rank : ProblemSeverity → Nat
  | .PROBLEM_NONE => 0
  | .PROBLEM_WARNING => 1
  | .PROBLEM_ERROR => 2

/-- Modelled from the spec: one entry of a problem list, a (severity, message)
pair (header not part of the sources). -/
structure PatchProblem where
  m_severity : ProblemSeverity
  m_description : String
  deriving DecidableEq, Repr

/-- A `QDateTime`: `none` is the null date of a default-constructed value,
`some t` a valid point in time. -/
abbrev QDateTime := Option Nat

/-- Modelled from the spec: the patch object produced by the parser (class
`VersionFile`, header not part of the sources). The resolver writes `name` and
the customizable flag; the object carries a problem list and severity of its
own; `content` stands for everything else that was read from the file. -/
structure VersionFile where
  name : String
  m_isCustomizable : Bool
  m_problems : List PatchProblem
  m_problemSeverity : ProblemSeverity
  content : String
  deriving DecidableEq, Repr

/-- The fields of a `MinecraftVersion` object, including the two inherited
from `ProfilePatch` (`m_problems`, `m_problemSeverity`). -/
structure MinecraftVersion where
  m_descriptor : String
  m_name : String
  m_type : String
  m_releaseTime : QDateTime
  m_traits : List String
  m_versionSource : VersionSource
  order : Int
  m_versionFileURL : String
  m_mainClass : String
  m_appletClass : String
  upstreamUpdate : Bool
  m_loadedVersionFile : Option VersionFile
  m_loadedVersionFileTimestamp : QDateTime
  m_problems : List PatchProblem
  m_problemSeverity : ProblemSeverity
  deriving DecidableEq, Repr

/-- State of the cache file `versions/<descriptor>/<descriptor>.dat` during
one operation: absent, or present with the modification time `QFileInfo`
reports and the outcome of `ProfileUtils::parseBinaryJsonFile` on it (the
parsed object, or the cause of the exception it throws). -/
inductive FileState where
  | absent
  | present (lastModified : Nat) (parsed : Except String VersionFile)

/-- A query made on the file system. -/
inductive FsQuery where
  | exists
  | lastModified
  | parseBinaryJsonFile
  deriving DecidableEq, Repr

/-- One call received by the profile. -/
inductive ProfileCall where
  | applyMinecraftVersion (id : String)
  | applyMainClass (mainClass : String)
  | applyAppletClass (appletClass : String)
  | applyMinecraftArguments (arguments : String)
  | applyMinecraftVersionType (type : String)
  | applyTraits (traits : List String)
  | applyProblemSeverity (severity : ProblemSeverity)
  deriving DecidableEq, Repr

/-- The profile, as the sequence of calls it has received, oldest first. -/
abbrev MinecraftProfile := List ProfileCall

/-- The exception `VersionIncomplete`, with the text given to its constructor. -/
structure VersionIncomplete where
  message : String
  deriving DecidableEq, Repr

/-- How a call ends: it returns a value, throws `VersionIncomplete`, or
dereferences a null pointer. -/
inductive Outcome (α : Type) where
  | returned (value : α)
  | threw (e : VersionIncomplete)
  | nullDereference
  deriving DecidableEq, Repr

/-- Value and effects of a member function that does not touch the profile. -/
structure Call (α : Type) where
  value : α
  self : MinecraftVersion
  queries : List FsQuery

/-- Outcome and effects of a member function that writes to the profile. -/
structure Applied where
  outcome : Outcome Unit
  profile : MinecraftProfile
  self : MinecraftVersion
  queries : List FsQuery

/-! ## Member functions -/

/-- Modelled from the spec: `ProfilePatch::addProblem` (header not part of the
sources): appends the entry and keeps `m_problemSeverity` the maximum severity
known. -/
def addProblem (d : MinecraftVersion) (severity : ProblemSeverity) (description : String) :
    MinecraftVersion :=
  { d with
    m_problemSeverity :=
      if severity.rank > d.m_problemSeverity.rank then severity else d.m_problemSeverity
    m_problems := d.m_problems ++ [⟨severity, description⟩] }

/-- Text of the problem recorded when the cache file is missing. -/
def missingFileText : String :=
  "The patch file doesn't exist locally. It's possible it just needs to be downloaded."

/-- Text before `%1` in the problem recorded when the parser fails. -/
def unreadableFileText : String :=
  "The patch file couldn't be read:\n"

/-- What lines 104-105 do to the freshly parsed object. -/
def tagLoaded (vf : VersionFile) : VersionFile :=
  { vf with name := "Minecraft", m_isCustomizable := true }

/-- Member function `MinecraftVersion::getVersionFile` (lines 84-117). -/
def getVersionFile (fs : FileState) (d : MinecraftVersion) : Call (Option VersionFile) :=
  let d1 := { d with m_problems := [], m_problemSeverity := .PROBLEM_NONE }
  match fs with
  | .absent =>
    let d2 := { d1 with m_loadedVersionFile := none }
    let d3 := addProblem d2 .PROBLEM_WARNING missingFileText
    ⟨d3.m_loadedVersionFile, d3, [.exists]⟩
  | .present t parsed =>
    if some t ≠ d1.m_loadedVersionFileTimestamp then
      match parsed with
      | .ok vf =>
        let loadedVersionFile := tagLoaded vf
        let d2 := { d1 with m_loadedVersionFileTimestamp := some t }
        let d3 := { d2 with m_loadedVersionFile := some loadedVersionFile }
        ⟨d3.m_loadedVersionFile, d3,
          [.exists, .lastModified, .parseBinaryJsonFile, .lastModified]⟩
      | .error cause =>
        let d2 := { d1 with m_loadedVersionFile := none }
        let d3 := addProblem d2 .PROBLEM_ERROR (unreadableFileText ++ cause)
        ⟨d3.m_loadedVersionFile, d3, [.exists, .lastModified, .parseBinaryJsonFile]⟩
    else
      ⟨d1.m_loadedVersionFile, d1, [.exists, .lastModified]⟩

/-- Text before `%1` in the exception thrown by `applyFileTo`. -/
def cantApplyText : String :=
  "Can't apply incomplete/builtin Minecraft version "

/-- Member function `MinecraftVersion::applyFileTo` (lines 61-71). `patchApplyTo` is
`VersionFile::applyTo`, which is not part of the sources. -/
def applyFileTo (patchApplyTo : VersionFile → MinecraftProfile → MinecraftProfile)
    (fs : FileState) (d : MinecraftVersion) (profile : MinecraftProfile) : Applied :=
  if d.m_versionSource = .Local then
    let r1 := getVersionFile fs d
    match r1.value with
    | some _ =>
      let r2 := getVersionFile fs r1.self
      match r2.value with
      | some vf => ⟨.returned (), patchApplyTo vf profile, r2.self, r1.queries ++ r2.queries⟩
      | none => ⟨.nullDereference, profile, r2.self, r1.queries ++ r2.queries⟩
    | none => ⟨.threw ⟨cantApplyText ++ r1.self.m_name⟩, profile, r1.self, r1.queries⟩
  else
    ⟨.threw ⟨cantApplyText ++ d.m_name⟩, profile, d, []⟩

/-- Text before `%1` in the exception thrown by `applyTo`. -/
def notAppliedPrefix : String :=
  "Minecraft version "

/-- Text after `%1` in the exception thrown by `applyTo`. -/
def notAppliedSuffix : String :=
  " could not be applied: version files are missing."

/-- The argument template every builtin version gets (line 171). -/
def legacyArguments : String :=
  " ${auth_player_name} ${auth_session}"

/-- Member function `MinecraftVersion::applyTo` (lines 154-175). -/
def applyTo (patchApplyTo : VersionFile → MinecraftProfile → MinecraftProfile)
    (fs : FileState) (d : MinecraftVersion) (profile : MinecraftProfile) : Applied :=
  if d.m_versionSource = .Local then
    applyFileTo patchApplyTo fs d profile
  else if d.m_versionSource ≠ .Builtin then
    ⟨.threw ⟨notAppliedPrefix ++ d.m_descriptor ++ notAppliedSuffix⟩, profile, d, []⟩
  else
    let p1 := profile ++ [.applyMinecraftVersion d.m_descriptor]
    let p2 := p1 ++ [.applyMainClass d.m_mainClass]
    let p3 := p2 ++ [.applyAppletClass d.m_appletClass]
    let p4 := p3 ++ [.applyMinecraftArguments legacyArguments]
    let p5 := p4 ++ [.applyMinecraftVersionType d.m_type]
    let p6 := p5 ++ [.applyTraits d.m_traits]
    let p7 := p6 ++ [.applyProblemSeverity d.m_problemSeverity]
    ⟨.returned (), p7, d, []⟩

/-- Member function `MinecraftVersion::getProblems` (lines 136-143); the fallback is
`ProfilePatch::getProblems`, which returns the object's own list. -/
def getProblems (fs : FileState) (d : MinecraftVersion) : Call (Outcome (List PatchProblem)) :=
  if d.m_versionSource ≠ .Builtin then
    let r1 := getVersionFile fs d
    match r1.value with
    | some _ =>
      let r2 := getVersionFile fs r1.self
      match r2.value with
      | some vf => ⟨.returned vf.m_problems, r2.self, r1.queries ++ r2.queries⟩
      | none => ⟨.nullDereference, r2.self, r1.queries ++ r2.queries⟩
    | none => ⟨.returned r1.self.m_problems, r1.self, r1.queries⟩
  else
    ⟨.returned d.m_problems, d, []⟩

/-- Member function `MinecraftVersion::getProblemSeverity` (lines 145-152); the fallback is
`ProfilePatch::getProblemSeverity`, which returns the object's own severity. -/
def getProblemSeverity (fs : FileState) (d : MinecraftVersion) : Call (Outcome ProblemSeverity) :=
  if d.m_versionSource ≠ .Builtin then
    let r1 := getVersionFile fs d
    match r1.value with
    | some _ =>
      let r2 := getVersionFile fs r1.self
      match r2.value with
      | some vf => ⟨.returned vf.m_problemSeverity, r2.self, r1.queries ++ r2.queries⟩
      | none => ⟨.nullDereference, r2.self, r1.queries ++ r2.queries⟩
    | none => ⟨.returned r1.self.m_problemSeverity, r1.self, r1.queries⟩
  else
    ⟨.returned d.m_problemSeverity, d, []⟩

/-- The text `part` occurs in `text` as a contiguous piece. -/
def ContainsText (text part : String) : Prop :=
  part.data <:+: text.data

instance (text part : String) : Decidable (ContainsText text part) :=
  inferInstanceAs (Decidable (part.data <:+: text.data))

/-! ## Sequences of resolver calls -/

/-- The object after one resolver call for each file-system state of `fss`,
in order. -/
def resolveAll (fss : List FileState) (d : MinecraftVersion) : MinecraftVersion :=
  fss.foldl (fun acc fs => (getVersionFile fs acc).self) d

/-- A descriptor on which the resolver has not run: no cached patch, no
recorded timestamp. -/
def IsFresh (d : MinecraftVersion) : Prop :=
  d.m_loadedVersionFile = none ∧ d.m_loadedVersionFileTimestamp = none

/-- States the resolver can bring a fresh descriptor into. -/
def Reachable (d : MinecraftVersion) : Prop :=
  ∃ d0 fss, IsFresh d0 ∧ d = resolveAll fss d0

/-! ## Classification queries -/

/-- Member function `MinecraftVersion::usesLegacyLauncher` (lines 7-10); the
trait set is held as the list of its keys. -/
def usesLegacyLauncher (d : MinecraftVersion) : Bool :=
  d.m_traits.contains "legacyLaunch" || d.m_traits.contains "aplhaLaunch"

/-- Member function `MinecraftVersion::getUrl` (lines 73-82). The constant
`URLConstants::AWS_DOWNLOAD_VERSIONS` is declared in a header that is not part
of the sources and is taken as a parameter. -/
def getUrl (AWS_DOWNLOAD_VERSIONS : String) (d : MinecraftVersion) : String :=
  if d.m_versionFileURL = "" then
    "http://" ++ AWS_DOWNLOAD_VERSIONS ++ d.m_descriptor ++ "/" ++ d.m_descriptor ++ ".json"
  else
    d.m_versionFileURL

/-- Member function `MinecraftVersion::isCustomizable` (lines 119-134). -/
def isCustomizable (d : MinecraftVersion) : Bool :=
  match d.m_versionSource with
  | .Local => true
  | .Remote => true
  | .Builtin => false
  | _ => false

/-- Member function `MinecraftVersion::hasUpdate` (lines 219-222). -/
def hasUpdate (d : MinecraftVersion) : Bool :=
  d.m_versionSource == .Remote || (d.m_versionSource == .Local && d.upstreamUpdate)

/-- Member function `MinecraftVersion::needsUpdate` (lines 214-217). -/
def needsUpdate (d : MinecraftVersion) : Bool :=
  d.m_versionSource == .Remote || hasUpdate d

/-- Member function `MinecraftVersion::isCustom` (lines 224-230). -/
def isCustom (d : MinecraftVersion) : Bool :=
  d.m_versionSource != .Builtin && d.m_versionSource != .Local &&
    d.m_versionSource != .Remote

/-! ## Sequences of public operations -/

/-- One of the operations of the object that can reach the resolver. -/
inductive Operation where
  | getVersionFile
  | applyTo (profile : MinecraftProfile)
  | getProblems
  | getProblemSeverity
  deriving DecidableEq, Repr

/-- The object after one operation on the file-system state `fs`, and the
file-system queries the operation made. -/
def performOperation (patchApplyTo : VersionFile → MinecraftProfile → MinecraftProfile)
    (op : Operation) (fs : FileState) (d : MinecraftVersion) :
    MinecraftVersion × List FsQuery :=
  match op with
  | .getVersionFile => ((getVersionFile fs d).self, (getVersionFile fs d).queries)
  | .applyTo profile =>
    ((applyTo patchApplyTo fs d profile).self, (applyTo patchApplyTo fs d profile).queries)
  | .getProblems => ((getProblems fs d).self, (getProblems fs d).queries)
  | .getProblemSeverity => ((getProblemSeverity fs d).self, (getProblemSeverity fs d).queries)

/-- The object after a sequence of operations, each on its own file-system
state, and all file-system queries made, oldest first. -/
def performAll (patchApplyTo : VersionFile → MinecraftProfile → MinecraftProfile)
    (steps : List (Operation × FileState)) (d : MinecraftVersion) :
    MinecraftVersion × List FsQuery :=
  steps.foldl
    (fun acc step =>
      ((performOperation patchApplyTo step.1 step.2 acc.1).1,
        acc.2 ++ (performOperation patchApplyTo step.1 step.2 acc.1).2))
    (d, [])

/-- The maximum severity among the entries of a problem list, `PROBLEM_NONE`
for the empty list. -/
def maxSeverity (problems : List PatchProblem) : ProblemSeverity :=
  problems.foldl
    (fun acc problem => if problem.m_severity.rank > acc.rank then problem.m_severity else acc)
    .PROBLEM_NONE

/-! ## Sample data -/

/-- A patch object as the parser could return it. -/
def samplePatch : VersionFile :=
  { name := "", m_isCustomizable := false, m_problems := [],
    m_problemSeverity := .PROBLEM_NONE, content := "mainClass=net.minecraft.client.main.Main" }

/-- A fresh descriptor of the given source, with id `1.12.2` and display name
`Vanilla`. -/
def sampleVersion (source : VersionSource) : MinecraftVersion :=
  { m_descriptor := "1.12.2", m_name := "Vanilla", m_type := "release",
    m_releaseTime := some 1505723986, m_traits := ["legacyLaunch"],
    m_versionSource := source, order := 0, m_versionFileURL := "",
    m_mainClass := "net.minecraft.launchwrapper.Launch",
    m_appletClass := "net.minecraft.client.MinecraftApplet",
    upstreamUpdate := false, m_loadedVersionFile := none,
    m_loadedVersionFileTimestamp := none, m_problems := [],
    m_problemSeverity := .PROBLEM_NONE }

/-- The sample descriptor after the file was seen at time 5 and parsed, and
then seen missing: the patch is dropped, the timestamp 5 stays. -/
def staleVersion (source : VersionSource) : MinecraftVersion :=
  resolveAll [.present 5 (.ok samplePatch), .absent] (sampleVersion source)

/-! ## The resolver, case by case -/

/-- The resolver when the cache file is missing. -/
theorem getVersionFile_absent (d : MinecraftVersion) :
    (getVersionFile .absent d).value = none ∧
    (getVersionFile .absent d).self =
      { d with m_loadedVersionFile := none
               m_problems := [⟨.PROBLEM_WARNING, missingFileText⟩]
               m_problemSeverity := .PROBLEM_WARNING } ∧
    (getVersionFile .absent d).queries = [.exists] := by
  simp [getVersionFile, addProblem, ProblemSeverity.rank]

/-- The resolver when the file has the recorded modification time. -/
theorem getVersionFile_unchanged (d : MinecraftVersion) (t : Nat)
    (parsed : Except String VersionFile) (h : d.m_loadedVersionFileTimestamp = some t) :
    (getVersionFile (.present t parsed) d).value = d.m_loadedVersionFile ∧
    (getVersionFile (.present t parsed) d).self =
      { d with m_problems := [], m_problemSeverity := .PROBLEM_NONE } ∧
    (getVersionFile (.present t parsed) d).queries = [.exists, .lastModified] := by
  simp [getVersionFile, h]

/-- The resolver when the modification time is new and the parser succeeds. -/
theorem getVersionFile_parsed (d : MinecraftVersion) (t : Nat) (vf : VersionFile)
    (h : d.m_loadedVersionFileTimestamp ≠ some t) :
    (getVersionFile (.present t (.ok vf)) d).value = some (tagLoaded vf) ∧
    (getVersionFile (.present t (.ok vf)) d).self =
      { d with m_loadedVersionFile := some (tagLoaded vf)
               m_loadedVersionFileTimestamp := some t
               m_problems := [], m_problemSeverity := .PROBLEM_NONE } ∧
    (getVersionFile (.present t (.ok vf)) d).queries =
      [.exists, .lastModified, .parseBinaryJsonFile, .lastModified] := by
  have h2 : ¬ some t = d.m_loadedVersionFileTimestamp := fun e => h e.symm
  simp [getVersionFile, h2]

/-- The resolver when the modification time is new and the parser throws. -/
theorem getVersionFile_failed (d : MinecraftVersion) (t : Nat) (cause : String)
    (h : d.m_loadedVersionFileTimestamp ≠ some t) :
    (getVersionFile (.present t (.error cause)) d).value = none ∧
    (getVersionFile (.present t (.error cause)) d).self =
      { d with m_loadedVersionFile := none
               m_problems := [⟨.PROBLEM_ERROR, unreadableFileText ++ cause⟩]
               m_problemSeverity := .PROBLEM_ERROR } ∧
    (getVersionFile (.present t (.error cause)) d).queries =
      [.exists, .lastModified, .parseBinaryJsonFile] := by
  have h2 : ¬ some t = d.m_loadedVersionFileTimestamp := fun e => h e.symm
  simp [getVersionFile, h2, addProblem, ProblemSeverity.rank]

/-- The sample descriptor after "parsed at time 5, then missing", field by field. -/
theorem staleVersion_eq (source : VersionSource) :
    staleVersion source =
      { sampleVersion source with
        m_loadedVersionFileTimestamp := some 5
        m_problems := [⟨.PROBLEM_WARNING, missingFileText⟩]
        m_problemSeverity := .PROBLEM_WARNING } := by
  simp [staleVersion, resolveAll, getVersionFile, sampleVersion, addProblem,
    ProblemSeverity.rank]

/-- The state of `staleVersion` is reachable from a fresh descriptor. -/
theorem staleVersion_reachable (source : VersionSource) : Reachable (staleVersion source) :=
  ⟨sampleVersion source, [.present 5 (.ok samplePatch), .absent], ⟨rfl, rfl⟩, rfl⟩

/-- The resolver returns null and records no problem exactly when the file
has the recorded modification time while no patch is cached. -/
theorem getVersionFile_null_silent_iff (fs : FileState) (d : MinecraftVersion) :
    ((getVersionFile fs d).value = none ∧ (getVersionFile fs d).self.m_problems = []) ↔
      (d.m_loadedVersionFile = none ∧
        ∃ t parsed, fs = .present t parsed ∧ d.m_loadedVersionFileTimestamp = some t) := by
  cases fs with
  | absent => simp [getVersionFile, addProblem]
  | present t parsed =>
    by_cases h : d.m_loadedVersionFileTimestamp = some t
    · have h1 := getVersionFile_unchanged d t parsed h
      rw [h1.1, h1.2.1]
      simp [h]
    · cases parsed with
      | ok vf =>
        have h1 := getVersionFile_parsed d t vf h
        rw [h1.1, h1.2.1]
        simp [h]
      | error cause =>
        have h1 := getVersionFile_failed d t cause h
        rw [h1.1, h1.2.1]
        simp [h]

/-- A second resolver call on the same file-system state returns what the
first returned and leaves the object as the first left it. -/
theorem getVersionFile_again (fs : FileState) (d : MinecraftVersion) :
    (getVersionFile fs (getVersionFile fs d).self).value = (getVersionFile fs d).value ∧
    (getVersionFile fs (getVersionFile fs d).self).self = (getVersionFile fs d).self := by
  cases fs with
  | absent =>
    have h1 := getVersionFile_absent d
    have h2 := getVersionFile_absent (getVersionFile .absent d).self
    refine ⟨by rw [h2.1, h1.1], ?_⟩
    rw [h2.2.1, h1.2.1]
  | present t parsed =>
    by_cases h : d.m_loadedVersionFileTimestamp = some t
    · have h1 := getVersionFile_unchanged d t parsed h
      have h2 := getVersionFile_unchanged (getVersionFile (.present t parsed) d).self t parsed
        (by rw [h1.2.1]; exact h)
      refine ⟨by rw [h2.1, h1.1, h1.2.1], ?_⟩
      rw [h2.2.1, h1.2.1]
    · cases parsed with
      | ok vf =>
        have h1 := getVersionFile_parsed d t vf h
        have h2 := getVersionFile_unchanged (getVersionFile (.present t (.ok vf)) d).self t
          (.ok vf) (by rw [h1.2.1])
        refine ⟨by rw [h2.1, h1.1, h1.2.1], ?_⟩
        rw [h2.2.1, h1.2.1]
      | error cause =>
        have h1 := getVersionFile_failed d t cause h
        have h2 := getVersionFile_failed (getVersionFile (.present t (.error cause)) d).self t
          cause (by rw [h1.2.1]; exact h)
        refine ⟨by rw [h2.1, h1.1], ?_⟩
        rw [h2.2.1, h1.2.1]

/-- Behaviour of `applyFileTo` on a Local descriptor for which the resolver yields a patch:
the patch is applied to the profile and nothing is thrown. -/
theorem applyFileTo_some (patchApplyTo : VersionFile → MinecraftProfile → MinecraftProfile)
    (fs : FileState) (d : MinecraftVersion) (profile : MinecraftProfile) (vf : VersionFile)
    (hLocal : d.m_versionSource = .Local) (h : (getVersionFile fs d).value = some vf) :
    applyFileTo patchApplyTo fs d profile =
      ⟨.returned (), patchApplyTo vf profile, (getVersionFile fs d).self,
        (getVersionFile fs d).queries ++ (getVersionFile fs (getVersionFile fs d).self).queries⟩ := by
  have h2 := getVersionFile_again fs d
  rw [h] at h2
  simp [applyFileTo, hLocal, h, h2.1, h2.2]

/-- Behaviour of `applyFileTo` on a Local descriptor for which the resolver yields null:
`VersionIncomplete` is thrown with the display name, the profile is untouched. -/
theorem applyFileTo_none (patchApplyTo : VersionFile → MinecraftProfile → MinecraftProfile)
    (fs : FileState) (d : MinecraftVersion) (profile : MinecraftProfile)
    (hLocal : d.m_versionSource = .Local) (h : (getVersionFile fs d).value = none) :
    applyFileTo patchApplyTo fs d profile =
      ⟨.threw ⟨cantApplyText ++ (getVersionFile fs d).self.m_name⟩, profile,
        (getVersionFile fs d).self, (getVersionFile fs d).queries⟩ := by
  simp [applyFileTo, hLocal, h]

/-- The resolver never changes the display name. -/
theorem getVersionFile_name (fs : FileState) (d : MinecraftVersion) :
    (getVersionFile fs d).self.m_name = d.m_name := by
  cases fs with
  | absent => simp [getVersionFile, addProblem]
  | present t parsed =>
    cases parsed <;> simp only [getVersionFile, addProblem] <;> split <;> rfl

/-- Behaviour of `applyTo` on a Local descriptor is `applyFileTo`. -/
theorem applyTo_local (patchApplyTo : VersionFile → MinecraftProfile → MinecraftProfile)
    (fs : FileState) (d : MinecraftVersion) (profile : MinecraftProfile)
    (hLocal : d.m_versionSource = .Local) :
    applyTo patchApplyTo fs d profile = applyFileTo patchApplyTo fs d profile := by
  simp [applyTo, hLocal]

/-- Behaviour of `applyTo` on a descriptor that is neither Local nor Builtin throws at once. -/
theorem applyTo_other (patchApplyTo : VersionFile → MinecraftProfile → MinecraftProfile)
    (fs : FileState) (d : MinecraftVersion) (profile : MinecraftProfile)
    (hBuiltin : d.m_versionSource ≠ .Builtin) (hLocal : d.m_versionSource ≠ .Local) :
    applyTo patchApplyTo fs d profile =
      ⟨.threw ⟨notAppliedPrefix ++ d.m_descriptor ++ notAppliedSuffix⟩, profile, d, []⟩ := by
  simp [applyTo, hBuiltin, hLocal]

/-- Behaviour of `applyTo` on a Local descriptor with a parseable file, from every state
but "no patch cached, timestamp equal to the file's": the patch the resolver
yields is applied, nothing is thrown and the descriptor has no problem. -/
theorem applyTo_local_ok (patchApplyTo : VersionFile → MinecraftProfile → MinecraftProfile)
    (d : MinecraftVersion) (profile : MinecraftProfile) (t : Nat) (vf : VersionFile)
    (hLocal : d.m_versionSource = .Local)
    (hState : d.m_loadedVersionFileTimestamp = some t → d.m_loadedVersionFile ≠ none) :
    ∃ p, (getVersionFile (.present t (.ok vf)) d).value = some p ∧
      (d.m_loadedVersionFileTimestamp ≠ some t → p = tagLoaded vf) ∧
      (d.m_loadedVersionFileTimestamp = some t → d.m_loadedVersionFile = some p) ∧
      (applyTo patchApplyTo (.present t (.ok vf)) d profile).outcome = .returned () ∧
      (applyTo patchApplyTo (.present t (.ok vf)) d profile).profile = patchApplyTo p profile ∧
      (applyTo patchApplyTo (.present t (.ok vf)) d profile).self.m_problems = [] ∧
      (applyTo patchApplyTo (.present t (.ok vf)) d profile).self.m_problemSeverity =
        .PROBLEM_NONE := by
  by_cases h : d.m_loadedVersionFileTimestamp = some t
  · obtain ⟨p, hp⟩ := Option.ne_none_iff_exists'.mp (hState h)
    have h1 := getVersionFile_unchanged d t (.ok vf) h
    have hv : (getVersionFile (.present t (.ok vf)) d).value = some p := by rw [h1.1, hp]
    refine ⟨p, hv, fun h' => absurd h h', fun _ => hp, ?_⟩
    rw [applyTo_local _ _ _ _ hLocal, applyFileTo_some _ _ _ _ p hLocal hv, h1.2.1]
    simp
  · have h1 := getVersionFile_parsed d t vf h
    refine ⟨tagLoaded vf, h1.1, fun _ => rfl, fun h' => absurd h' h, ?_⟩
    rw [applyTo_local _ _ _ _ hLocal, applyFileTo_some _ _ _ _ _ hLocal h1.1, h1.2.1]
    simp

/-- A text contains whatever is put into it between a prefix and a suffix. -/
theorem containsText_arg (before part after : String) :
    ContainsText (before ++ part ++ after) part := by
  unfold ContainsText
  rw [String.data_append, String.data_append]
  exact ⟨before.data, after.data, rfl⟩

/-- A text contains whatever is appended to a prefix. -/
theorem containsText_arg_last (before part : String) :
    ContainsText (before ++ part) part := by
  unfold ContainsText
  rw [String.data_append]
  exact ⟨before.data, [], by simp⟩

/-- One more resolver call at the end of a sequence. -/
theorem resolveAll_append (fss : List FileState) (fs : FileState) (d : MinecraftVersion) :
    resolveAll (fss ++ [fs]) d = (getVersionFile fs (resolveAll fss d)).self := by
  simp [resolveAll, List.foldl_append]

/-- When the resolver returns a patch, the file is present, and afterwards the
recorded timestamp is its modification time and the patch is the cached one. -/
theorem getVersionFile_some (fs : FileState) (d : MinecraftVersion) (p : VersionFile)
    (h : (getVersionFile fs d).value = some p) :
    ∃ t parsed, fs = .present t parsed ∧
      (getVersionFile fs d).self.m_loadedVersionFileTimestamp = some t ∧
      (getVersionFile fs d).self.m_loadedVersionFile = some p := by
  cases fs with
  | absent =>
    rw [(getVersionFile_absent d).1] at h
    cases h
  | present t parsed =>
    refine ⟨t, parsed, rfl, ?_⟩
    by_cases hts : d.m_loadedVersionFileTimestamp = some t
    · have h1 := getVersionFile_unchanged d t parsed hts
      rw [h1.1] at h
      rw [h1.2.1]
      exact ⟨hts, h⟩
    · cases parsed with
      | ok vf =>
        have h1 := getVersionFile_parsed d t vf hts
        rw [h1.1] at h
        rw [h1.2.1]
        exact ⟨rfl, h⟩
      | error cause =>
        rw [(getVersionFile_failed d t cause hts).1] at h
        cases h

/-- Along resolver calls from a fresh descriptor, a cached patch is the tagged
result of a successful parse of the file at the recorded timestamp. -/
theorem resolveAll_cache (d0 : MinecraftVersion) (hFresh : IsFresh d0)
    (fss : List FileState) (p : VersionFile)
    (h : (resolveAll fss d0).m_loadedVersionFile = some p) :
    ∃ t vf, FileState.present t (.ok vf) ∈ fss ∧ p = tagLoaded vf ∧
      (resolveAll fss d0).m_loadedVersionFileTimestamp = some t := by
  induction fss using List.reverseRecOn generalizing p with
  | nil =>
    have h0 : d0.m_loadedVersionFile = some p := h
    rw [hFresh.1] at h0
    cases h0
  | append_singleton l a ih =>
    rw [resolveAll_append] at h ⊢
    cases a with
    | absent =>
      rw [(getVersionFile_absent _).2.1] at h
      cases h
    | present t parsed =>
      by_cases hts : (resolveAll l d0).m_loadedVersionFileTimestamp = some t
      · have h1 := getVersionFile_unchanged (resolveAll l d0) t parsed hts
        rw [h1.2.1] at h ⊢
        obtain ⟨t1, vf, hmem, hp, ht1⟩ := ih p h
        exact ⟨t1, vf, List.mem_append_left _ hmem, hp, ht1⟩
      · cases parsed with
        | ok vf =>
          have h1 := getVersionFile_parsed (resolveAll l d0) t vf hts
          rw [h1.2.1] at h ⊢
          have hp : tagLoaded vf = p := Option.some.inj h
          exact ⟨t, vf, by simp, hp.symm, rfl⟩
        | error cause =>
          rw [(getVersionFile_failed _ t cause hts).2.1] at h
          cases h

/-- On a Builtin descriptor every operation but a direct resolver call leaves
the object as it is and makes no file-system query. -/
theorem performOperation_builtin
    (patchApplyTo : VersionFile → MinecraftProfile → MinecraftProfile)
    (op : Operation) (fs : FileState) (d : MinecraftVersion)
    (hBuiltin : d.m_versionSource = .Builtin) (hOp : op ≠ .getVersionFile) :
    performOperation patchApplyTo op fs d = (d, []) := by
  cases op with
  | getVersionFile => exact absurd rfl hOp
  | applyTo profile => simp [performOperation, applyTo, hBuiltin]
  | getProblems => simp [performOperation, getProblems, hBuiltin]
  | getProblemSeverity => simp [performOperation, getProblemSeverity, hBuiltin]

/-- A sequence of such operations on a Builtin descriptor, started with any
query log, changes neither the object nor the log. -/
theorem foldl_performOperation_builtin
    (patchApplyTo : VersionFile → MinecraftProfile → MinecraftProfile)
    (steps : List (Operation × FileState)) (d : MinecraftVersion) (log : List FsQuery)
    (hBuiltin : d.m_versionSource = .Builtin)
    (hGuarded : ∀ step ∈ steps, step.1 ≠ Operation.getVersionFile) :
    steps.foldl
      (fun acc step =>
        ((performOperation patchApplyTo step.1 step.2 acc.1).1,
          acc.2 ++ (performOperation patchApplyTo step.1 step.2 acc.1).2))
      (d, log) = (d, log) := by
  induction steps with
  | nil => rfl
  | cons step rest ih =>
    have h1 := performOperation_builtin patchApplyTo step.1 step.2 d hBuiltin
      (hGuarded step (List.mem_cons_self _ _))
    simp only [List.foldl_cons, h1, List.append_nil]
    exact ih (fun s hs => hGuarded s (List.mem_cons_of_mem _ hs))

/-! ## Claims -/

/-- C1: the resolver can return null with an empty problem list. A fresh Local
descriptor sees the file at time 5 (parsed), then sees it missing, then sees
it again at time 5: the third call returns null and records no problem. -/
theorem C1_null_with_empty_problems :
    Reachable (staleVersion .Local) ∧
    (getVersionFile (.present 5 (.ok samplePatch)) (staleVersion .Local)).value = none ∧
    (getVersionFile (.present 5 (.ok samplePatch)) (staleVersion .Local)).self.m_problems = [] ∧
    (getVersionFile (.present 5 (.ok samplePatch)) (staleVersion .Local)).queries =
      [.exists, .lastModified] := by
  refine ⟨staleVersion_reachable _, ?_⟩
  have h := getVersionFile_unchanged (staleVersion .Local) 5 (.ok samplePatch)
    (by rw [staleVersion_eq])
  rw [h.1, h.2.1, h.2.2, staleVersion_eq]
  simp [sampleVersion]

/-- C2: for a Local descriptor in any state, when the cache file is missing
the resolver returns null, drops the cached patch and leaves exactly one
Warning problem with severity Warning; `applyTo` throws `VersionIncomplete`
and the profile receives no call. -/
theorem C2_missing_file (patchApplyTo : VersionFile → MinecraftProfile → MinecraftProfile)
    (d : MinecraftVersion) (profile : MinecraftProfile)
    (hLocal : d.m_versionSource = .Local) :
    (getVersionFile .absent d).value = none ∧
    (getVersionFile .absent d).self.m_loadedVersionFile = none ∧
    (getVersionFile .absent d).self.m_problems = [⟨.PROBLEM_WARNING, missingFileText⟩] ∧
    (getVersionFile .absent d).self.m_problemSeverity = .PROBLEM_WARNING ∧
    (applyTo patchApplyTo .absent d profile).outcome =
      .threw ⟨cantApplyText ++ d.m_name⟩ ∧
    (applyTo patchApplyTo .absent d profile).profile = profile ∧
    (applyTo patchApplyTo .absent d profile).self = (getVersionFile .absent d).self := by
  have h := getVersionFile_absent d
  refine ⟨h.1, ?_, ?_, ?_, ?_, ?_, ?_⟩
  · rw [h.2.1]
  · rw [h.2.1]
  · rw [h.2.1]
  · simp [applyTo, applyFileTo, hLocal, h.1, h.2.1]
  · simp [applyTo, applyFileTo, hLocal, h.1]
  · simp [applyTo, applyFileTo, hLocal, h.1]

/-- C2 at the sample Local descriptor and an empty profile. -/
theorem C2_missing_file_witness :
    (sampleVersion .Local).m_versionSource = .Local ∧
    (applyTo (fun _ p => p) .absent (sampleVersion .Local) []).outcome =
      .threw ⟨cantApplyText ++ "Vanilla"⟩ :=
  ⟨rfl, (C2_missing_file (fun _ p => p) (sampleVersion .Local) [] rfl).2.2.2.2.1⟩

/-- C3: a Local descriptor whose cache file exists and parses can still fail
to apply. In the reachable state "parsed at time 5, then missing", with the
file back at time 5, `applyTo` throws `VersionIncomplete` and the profile
receives nothing, whatever the patch object would do. -/
theorem C3_parseable_file_not_applied
    (patchApplyTo : VersionFile → MinecraftProfile → MinecraftProfile)
    (profile : MinecraftProfile) :
    Reachable (staleVersion .Local) ∧
    (staleVersion .Local).m_versionSource = .Local ∧
    (applyTo patchApplyTo (.present 5 (.ok samplePatch)) (staleVersion .Local) profile).outcome =
      .threw ⟨"Can't apply incomplete/builtin Minecraft version Vanilla"⟩ ∧
    (applyTo patchApplyTo (.present 5 (.ok samplePatch)) (staleVersion .Local) profile).profile =
      profile := by
  have hs : (staleVersion .Local).m_versionSource = .Local := by rw [staleVersion_eq]; rfl
  have h := getVersionFile_unchanged (staleVersion .Local) 5 (.ok samplePatch)
    (by rw [staleVersion_eq])
  have hv : (getVersionFile (.present 5 (.ok samplePatch)) (staleVersion .Local)).value =
      none := by
    rw [h.1, staleVersion_eq]; rfl
  refine ⟨staleVersion_reachable _, hs, ?_, ?_⟩
  · rw [applyTo_local _ _ _ _ hs, applyFileTo_none _ _ _ _ hs hv, getVersionFile_name,
      staleVersion_eq]
    rfl
  · rw [applyTo_local _ _ _ _ hs, applyFileTo_none _ _ _ _ hs hv]

/-- C4: for a descriptor that is neither Builtin nor Local, in every state and
for every file-system state, `applyTo` throws `VersionIncomplete`, the profile
and the descriptor (cached patch, timestamp, problems) are unchanged and no
file-system query is made. -/
theorem C4_remote_custom_refused
    (patchApplyTo : VersionFile → MinecraftProfile → MinecraftProfile)
    (fs : FileState) (d : MinecraftVersion) (profile : MinecraftProfile)
    (hBuiltin : d.m_versionSource ≠ .Builtin) (hLocal : d.m_versionSource ≠ .Local) :
    applyTo patchApplyTo fs d profile =
      ⟨.threw ⟨notAppliedPrefix ++ d.m_descriptor ++ notAppliedSuffix⟩, profile, d, []⟩ := by
  simp [applyTo, hBuiltin, hLocal]

/-- C4 at the sample Remote descriptor, file present. -/
theorem C4_remote_custom_refused_witness :
    applyTo (fun _ p => p) (.present 5 (.ok samplePatch)) (sampleVersion .Remote) [] =
      ⟨.threw ⟨"Minecraft version 1.12.2 could not be applied: version files are missing."⟩,
        [], sampleVersion .Remote, []⟩ :=
  C4_remote_custom_refused (fun _ p => p) (.present 5 (.ok samplePatch))
    (sampleVersion .Remote) [] (by decide) (by decide)

/-- C5: for a Builtin descriptor, in every state and for every file-system
state, `applyTo` returns normally, the profile receives exactly the seven
calls identifier, main class, applet class, fixed argument template, release
type, traits, problem severity, in this order, no file-system query is made
and the descriptor is unchanged. -/
theorem C5_builtin_applied
    (patchApplyTo : VersionFile → MinecraftProfile → MinecraftProfile)
    (fs : FileState) (d : MinecraftVersion) (profile : MinecraftProfile)
    (hBuiltin : d.m_versionSource = .Builtin) :
    applyTo patchApplyTo fs d profile =
      ⟨.returned (),
        profile ++
          [.applyMinecraftVersion d.m_descriptor,
           .applyMainClass d.m_mainClass,
           .applyAppletClass d.m_appletClass,
           .applyMinecraftArguments " ${auth_player_name} ${auth_session}",
           .applyMinecraftVersionType d.m_type,
           .applyTraits d.m_traits,
           .applyProblemSeverity d.m_problemSeverity],
        d, []⟩ := by
  simp [applyTo, hBuiltin, legacyArguments]

/-- C5 at the sample Builtin descriptor with a stale cache state. -/
theorem C5_builtin_applied_witness :
    (staleVersion .Builtin).m_versionSource = .Builtin ∧
    (applyTo (fun _ p => p) .absent (staleVersion .Builtin) []).profile =
      [.applyMinecraftVersion "1.12.2",
       .applyMainClass "net.minecraft.launchwrapper.Launch",
       .applyAppletClass "net.minecraft.client.MinecraftApplet",
       .applyMinecraftArguments " ${auth_player_name} ${auth_session}",
       .applyMinecraftVersionType "release",
       .applyTraits ["legacyLaunch"],
       .applyProblemSeverity .PROBLEM_WARNING] := by
  have hs : (staleVersion .Builtin).m_versionSource = .Builtin := by rw [staleVersion_eq]; rfl
  refine ⟨hs, ?_⟩
  rw [C5_builtin_applied (fun _ p => p) .absent (staleVersion .Builtin) [] hs, staleVersion_eq]
  rfl

/-- C6, as stated, fails: for the sample Local descriptor (id `1.12.2`, name
`Vanilla`) with the file missing, the text of the error does not contain the
descriptor id, and it is not the error the Remote descriptor of the same id
and name gets. -/
theorem C6_local_error_lacks_id :
    (applyTo (fun _ p => p) .absent (sampleVersion .Local) []).outcome =
      .threw ⟨"Can't apply incomplete/builtin Minecraft version Vanilla"⟩ ∧
    ¬ ContainsText "Can't apply incomplete/builtin Minecraft version Vanilla"
        (sampleVersion .Local).m_descriptor ∧
    (applyTo (fun _ p => p) .absent (sampleVersion .Remote) []).outcome ≠
      (applyTo (fun _ p => p) .absent (sampleVersion .Local) []).outcome := by
  refine ⟨?_, by decide, ?_⟩
  · simp [applyTo, applyFileTo, getVersionFile, addProblem, sampleVersion, cantApplyText]
  · simp [applyTo, applyFileTo, getVersionFile, addProblem, sampleVersion, cantApplyText,
      notAppliedPrefix, notAppliedSuffix]

/-- C6, amended: whenever `applyTo` throws, it throws `VersionIncomplete`, and
either the descriptor is Local, the resolver yielded null and the text is
"Can't apply incomplete/builtin Minecraft version " followed by the display
name (so it contains the display name), or the descriptor is neither Local nor
Builtin and the text is "Minecraft version <id> could not be applied: version
files are missing." (so it contains the descriptor id). -/
theorem C6_error_text
    (patchApplyTo : VersionFile → MinecraftProfile → MinecraftProfile)
    (fs : FileState) (d : MinecraftVersion) (profile : MinecraftProfile)
    (e : VersionIncomplete)
    (hThrew : (applyTo patchApplyTo fs d profile).outcome = .threw e) :
    (d.m_versionSource = .Local ∧ (getVersionFile fs d).value = none ∧
      e.message = cantApplyText ++ d.m_name ∧ ContainsText e.message d.m_name) ∨
    (d.m_versionSource ≠ .Local ∧ d.m_versionSource ≠ .Builtin ∧
      e.message = notAppliedPrefix ++ d.m_descriptor ++ notAppliedSuffix ∧
      ContainsText e.message d.m_descriptor) := by
  by_cases hLocal : d.m_versionSource = .Local
  · left
    rw [applyTo_local _ _ _ _ hLocal] at hThrew
    cases hv : (getVersionFile fs d).value with
    | some vf =>
      rw [applyFileTo_some _ _ _ _ vf hLocal hv] at hThrew
      cases hThrew
    | none =>
      rw [applyFileTo_none _ _ _ _ hLocal hv, getVersionFile_name] at hThrew
      have he : e = ⟨cantApplyText ++ d.m_name⟩ := by
        simpa using hThrew.symm
      subst he
      exact ⟨hLocal, rfl, rfl, containsText_arg_last _ _⟩
  · right
    by_cases hBuiltin : d.m_versionSource = .Builtin
    · simp [applyTo, hBuiltin] at hThrew
    · rw [applyTo_other patchApplyTo fs d profile hBuiltin hLocal] at hThrew
      have he : e = ⟨notAppliedPrefix ++ d.m_descriptor ++ notAppliedSuffix⟩ := by
        simpa using hThrew.symm
      subst he
      exact ⟨hLocal, hBuiltin, rfl, containsText_arg _ _ _⟩

/-- C6 amended, at the sample Local descriptor with the file missing. -/
theorem C6_error_text_witness :
    (applyTo (fun _ p => p) .absent (sampleVersion .Local) []).outcome =
      .threw ⟨"Can't apply incomplete/builtin Minecraft version Vanilla"⟩ ∧
    ContainsText "Can't apply incomplete/builtin Minecraft version Vanilla" "Vanilla" := by
  have h : (applyTo (fun _ p => p) .absent (sampleVersion .Local) []).outcome =
      .threw ⟨"Can't apply incomplete/builtin Minecraft version Vanilla"⟩ := by
    simp [applyTo, applyFileTo, getVersionFile, addProblem, sampleVersion, cantApplyText]
  refine ⟨h, ?_⟩
  rcases C6_error_text (fun _ p => p) .absent (sampleVersion .Local) []
    ⟨"Can't apply incomplete/builtin Minecraft version Vanilla"⟩ h with h1 | h1
  · exact h1.2.2.2
  · exact absurd rfl h1.1

/-- C7: with the cache file present, the resolver invokes the parser if and
only if the file's modification time differs from the recorded timestamp. If
they are equal, the cached patch is returned and patch and timestamp are left
as they were. If they differ and the parser succeeds, the value returned and
cached is the parsed object with name "Minecraft" and the customizable flag
set, and the recorded timestamp becomes the file's modification time. -/
theorem C7_parse_iff_changed (d : MinecraftVersion) (t : Nat)
    (parsed : Except String VersionFile) :
    (FsQuery.parseBinaryJsonFile ∈ (getVersionFile (.present t parsed) d).queries ↔
      d.m_loadedVersionFileTimestamp ≠ some t) ∧
    (d.m_loadedVersionFileTimestamp = some t →
      (getVersionFile (.present t parsed) d).value = d.m_loadedVersionFile ∧
      (getVersionFile (.present t parsed) d).self.m_loadedVersionFile =
        d.m_loadedVersionFile ∧
      (getVersionFile (.present t parsed) d).self.m_loadedVersionFileTimestamp =
        d.m_loadedVersionFileTimestamp) ∧
    (∀ vf, d.m_loadedVersionFileTimestamp ≠ some t → parsed = .ok vf →
      (getVersionFile (.present t parsed) d).value =
        some { vf with name := "Minecraft", m_isCustomizable := true } ∧
      (getVersionFile (.present t parsed) d).self.m_loadedVersionFile =
        some { vf with name := "Minecraft", m_isCustomizable := true } ∧
      (getVersionFile (.present t parsed) d).self.m_loadedVersionFileTimestamp = some t) := by
  refine ⟨?_, ?_, ?_⟩
  · by_cases h : d.m_loadedVersionFileTimestamp = some t
    · rw [(getVersionFile_unchanged d t parsed h).2.2]
      simp [h]
    · cases parsed with
      | ok vf =>
        rw [(getVersionFile_parsed d t vf h).2.2]
        simp [h]
      | error cause =>
        rw [(getVersionFile_failed d t cause h).2.2]
        simp [h]
  · intro h
    have h1 := getVersionFile_unchanged d t parsed h
    rw [h1.1, h1.2.1]
    exact ⟨rfl, rfl, rfl⟩
  · intro vf h hp
    subst hp
    have h1 := getVersionFile_parsed d t vf h
    rw [h1.1, h1.2.1]
    exact ⟨rfl, rfl, rfl⟩

/-- C7 at the sample descriptor: first call at time 5 parses, the second does
not, a third at time 6 parses again. -/
theorem C7_parse_iff_changed_witness :
    FsQuery.parseBinaryJsonFile ∈
      (getVersionFile (.present 5 (.ok samplePatch)) (sampleVersion .Local)).queries ∧
    FsQuery.parseBinaryJsonFile ∉
      (getVersionFile (.present 5 (.ok samplePatch))
        (resolveAll [.present 5 (.ok samplePatch)] (sampleVersion .Local))).queries ∧
    FsQuery.parseBinaryJsonFile ∈
      (getVersionFile (.present 6 (.ok samplePatch))
        (resolveAll [.present 5 (.ok samplePatch)] (sampleVersion .Local))).queries := by
  refine ⟨?_, ?_, ?_⟩
  · exact (C7_parse_iff_changed (sampleVersion .Local) 5 (.ok samplePatch)).1.mpr (by decide)
  · rw [(C7_parse_iff_changed _ 5 (.ok samplePatch)).1]
    simp [resolveAll, getVersionFile, sampleVersion]
  · rw [(C7_parse_iff_changed _ 6 (.ok samplePatch)).1]
    simp [resolveAll, getVersionFile, sampleVersion]

/-- C8: for every descriptor state and every file-system state, a second
resolver call on the same file-system state returns the same patch as the
first and leaves the descriptor (cached patch, timestamp, problem list,
severity) as the first left it; when the file exists and parses, the problem
list is empty after both calls and the second call does not invoke the
parser. -/
theorem C8_resolver_idempotent (fs : FileState) (d : MinecraftVersion) :
    (getVersionFile fs (getVersionFile fs d).self).value = (getVersionFile fs d).value ∧
    (getVersionFile fs (getVersionFile fs d).self).self = (getVersionFile fs d).self ∧
    (∀ t vf, fs = .present t (.ok vf) →
      (getVersionFile fs d).self.m_problems = [] ∧
      (getVersionFile fs (getVersionFile fs d).self).self.m_problems = [] ∧
      FsQuery.parseBinaryJsonFile ∉ (getVersionFile fs (getVersionFile fs d).self).queries) := by
  refine ⟨(getVersionFile_again fs d).1, (getVersionFile_again fs d).2, ?_⟩
  intro t vf hfs
  subst hfs
  have hp : (getVersionFile (.present t (.ok vf)) d).self.m_problems = [] ∧
      (getVersionFile (.present t (.ok vf)) d).self.m_loadedVersionFileTimestamp = some t := by
    by_cases h : d.m_loadedVersionFileTimestamp = some t
    · rw [(getVersionFile_unchanged d t (.ok vf) h).2.1]
      exact ⟨rfl, h⟩
    · rw [(getVersionFile_parsed d t vf h).2.1]
      exact ⟨rfl, rfl⟩
  refine ⟨hp.1, ?_, ?_⟩
  · rw [(getVersionFile_again _ d).2]
    exact hp.1
  · rw [(getVersionFile_unchanged _ t (.ok vf) hp.2).2.2]
    decide

/-- C9: when the cache file exists with a modification time different from
the recorded timestamp and the parser throws, the resolver returns null, drops
the cached patch, leaves exactly one Error problem whose text contains the
cause, keeps the recorded timestamp, and a following call on the same
file-system state invokes the parser again. -/
theorem C9_parse_failure (d : MinecraftVersion) (t : Nat) (cause : String)
    (hChanged : d.m_loadedVersionFileTimestamp ≠ some t) :
    (getVersionFile (.present t (.error cause)) d).value = none ∧
    (getVersionFile (.present t (.error cause)) d).self.m_loadedVersionFile = none ∧
    (getVersionFile (.present t (.error cause)) d).self.m_problems =
      [⟨.PROBLEM_ERROR, "The patch file couldn't be read:\n" ++ cause⟩] ∧
    ContainsText ("The patch file couldn't be read:\n" ++ cause) cause ∧
    (getVersionFile (.present t (.error cause)) d).self.m_problemSeverity = .PROBLEM_ERROR ∧
    (getVersionFile (.present t (.error cause)) d).self.m_loadedVersionFileTimestamp =
      d.m_loadedVersionFileTimestamp ∧
    FsQuery.parseBinaryJsonFile ∈
      (getVersionFile (.present t (.error cause))
        (getVersionFile (.present t (.error cause)) d).self).queries := by
  have h1 := getVersionFile_failed d t cause hChanged
  have h2 := getVersionFile_failed (getVersionFile (.present t (.error cause)) d).self t cause
    (by rw [h1.2.1]; exact hChanged)
  rw [h2.2.2, h1.1, h1.2.1]
  exact ⟨rfl, rfl, rfl, containsText_arg_last _ _, rfl, rfl, by decide⟩

/-- C9 at the sample descriptor holding the patch parsed at time 5, with the
file at time 6 unreadable. -/
theorem C9_parse_failure_witness :
    (getVersionFile (.present 6 (.error "unexpected end of file"))
      (resolveAll [.present 5 (.ok samplePatch)] (sampleVersion .Local))).self.m_problems =
      [⟨.PROBLEM_ERROR, "The patch file couldn't be read:\nunexpected end of file"⟩] :=
  (C9_parse_failure (resolveAll [.present 5 (.ok samplePatch)] (sampleVersion .Local)) 6
    "unexpected end of file"
    (by simp [resolveAll, getVersionFile, sampleVersion])).2.2.1

/-- C10: for a descriptor that is not Builtin and for which the resolver yields
a patch, `getProblems` and `getProblemSeverity` return the problem list and
severity of that patch; when the resolver yields null they return the
descriptor's own list and severity as the resolver left them; for a Builtin
descriptor they return the descriptor's own list and severity and the resolver
is not called. -/
theorem C10_problem_delegation (fs : FileState) (d : MinecraftVersion) :
    (∀ vf, d.m_versionSource ≠ .Builtin → (getVersionFile fs d).value = some vf →
      (getProblems fs d).value = .returned vf.m_problems ∧
      (getProblemSeverity fs d).value = .returned vf.m_problemSeverity) ∧
    (d.m_versionSource ≠ .Builtin → (getVersionFile fs d).value = none →
      (getProblems fs d).value = .returned (getVersionFile fs d).self.m_problems ∧
      (getProblemSeverity fs d).value =
        .returned (getVersionFile fs d).self.m_problemSeverity) ∧
    (d.m_versionSource = .Builtin →
      getProblems fs d = ⟨.returned d.m_problems, d, []⟩ ∧
      getProblemSeverity fs d = ⟨.returned d.m_problemSeverity, d, []⟩) := by
  refine ⟨?_, ?_, ?_⟩
  · intro vf hB hv
    have h2 := (getVersionFile_again fs d).1
    rw [hv] at h2
    simp [getProblems, getProblemSeverity, hB, hv, h2]
  · intro hB hv
    simp [getProblems, getProblemSeverity, hB, hv]
  · intro hB
    simp [getProblems, getProblemSeverity, hB]

/-- C10 at the sample Local descriptor whose own problem would be a Warning,
with a file whose patch reports an Error: the severity returned is Error. -/
theorem C10_problem_delegation_witness :
    (getProblemSeverity
      (.present 6 (.ok { samplePatch with
        m_problems := [⟨.PROBLEM_ERROR, "bad library"⟩], m_problemSeverity := .PROBLEM_ERROR }))
      (staleVersion .Local)).value = .returned .PROBLEM_ERROR ∧
    (staleVersion .Local).m_problemSeverity = .PROBLEM_WARNING := by
  refine ⟨?_, by rw [staleVersion_eq]⟩
  have hs : (staleVersion .Local).m_versionSource ≠ .Builtin := by
    rw [staleVersion_eq]; decide
  have hv := (getVersionFile_parsed (staleVersion .Local) 6
    { samplePatch with
      m_problems := [⟨.PROBLEM_ERROR, "bad library"⟩], m_problemSeverity := .PROBLEM_ERROR }
    (by rw [staleVersion_eq]; decide)).1
  exact ((C10_problem_delegation _ (staleVersion .Local)).1 _ hs hv).2

/-- C11, as stated, fails: one direct resolver call on the fresh sample Builtin
descriptor, with the file present at time 5 and parseable, queries the file
system, parses the file and leaves a cached patch. -/
theorem C11_builtin_resolver_caches :
    IsFresh (sampleVersion .Builtin) ∧
    (sampleVersion .Builtin).m_versionSource = .Builtin ∧
    (performAll (fun _ p => p) [(.getVersionFile, .present 5 (.ok samplePatch))]
      (sampleVersion .Builtin)).1.m_loadedVersionFile = some (tagLoaded samplePatch) ∧
    (performAll (fun _ p => p) [(.getVersionFile, .present 5 (.ok samplePatch))]
      (sampleVersion .Builtin)).2 =
      [.exists, .lastModified, .parseBinaryJsonFile, .lastModified] := by
  have h := getVersionFile_parsed (sampleVersion .Builtin) 5 samplePatch (by decide)
  refine ⟨⟨rfl, rfl⟩, rfl, ?_, ?_⟩
  · simp only [performAll, List.foldl_cons, List.foldl_nil, performOperation]
    rw [h.2.1]
  · simp only [performAll, List.foldl_cons, List.foldl_nil, performOperation]
    rw [h.2.2]
    rfl

/-- C11, amended: starting from a fresh Builtin descriptor, after any sequence
of `applyTo`, `getProblems` and `getProblemSeverity` calls over any
file-system states the descriptor is unchanged, its cached patch is still
null and no file-system query was made. The resolver itself does not look at
the source: on every descriptor, Builtin included, its first step is the
existence check of the file. -/
theorem C11_builtin_guarded
    (patchApplyTo : VersionFile → MinecraftProfile → MinecraftProfile)
    (steps : List (Operation × FileState)) (d : MinecraftVersion)
    (hBuiltin : d.m_versionSource = .Builtin) (hFresh : IsFresh d)
    (hGuarded : ∀ step ∈ steps, step.1 ≠ Operation.getVersionFile) :
    performAll patchApplyTo steps d = (d, []) ∧
    (performAll patchApplyTo steps d).1.m_loadedVersionFile = none ∧
    (performAll patchApplyTo steps d).2 = [] ∧
    (∀ fs, (getVersionFile fs d).queries.head? = some .exists) := by
  have h : performAll patchApplyTo steps d = (d, []) :=
    foldl_performOperation_builtin patchApplyTo steps d [] hBuiltin hGuarded
  refine ⟨h, by rw [h]; exact hFresh.1, by rw [h], ?_⟩
  intro fs
  cases fs with
  | absent => rw [(getVersionFile_absent d).2.2]; rfl
  | present t parsed =>
    by_cases hts : d.m_loadedVersionFileTimestamp = some t
    · rw [(getVersionFile_unchanged d t parsed hts).2.2]; rfl
    · cases parsed with
      | ok vf => rw [(getVersionFile_parsed d t vf hts).2.2]; rfl
      | error cause => rw [(getVersionFile_failed d t cause hts).2.2]; rfl

/-- C11 amended, on the fresh sample Builtin descriptor with the file present
and parseable at every step. -/
theorem C11_builtin_guarded_witness :
    (performAll (fun _ p => p)
      [(.getProblems, .present 5 (.ok samplePatch)),
       (.applyTo [], .present 5 (.ok samplePatch)),
       (.getProblemSeverity, .present 6 (.ok samplePatch))]
      (sampleVersion .Builtin)) = (sampleVersion .Builtin, []) :=
  (C11_builtin_guarded (fun _ p => p)
    [(.getProblems, .present 5 (.ok samplePatch)),
     (.applyTo [], .present 5 (.ok samplePatch)),
     (.getProblemSeverity, .present 6 (.ok samplePatch))]
    (sampleVersion .Builtin) rfl ⟨rfl, rfl⟩ (by simp)).1

/-- C12: in every state reached from a fresh descriptor by resolver calls, a
cached patch is the object of a successful parse of the file, made when the
file had the modification time now recorded as timestamp (with the name and
customizable flag the resolver sets); and whenever a further resolver call
returns a patch, the file is present and its modification time is the
timestamp recorded after the call. -/
theorem C12_cache_validity (d0 : MinecraftVersion) (fss : List FileState)
    (hFresh : IsFresh d0) :
    (∀ p, (resolveAll fss d0).m_loadedVersionFile = some p →
      ∃ t vf, FileState.present t (.ok vf) ∈ fss ∧ p = tagLoaded vf ∧
        (resolveAll fss d0).m_loadedVersionFileTimestamp = some t) ∧
    (∀ fs p, (getVersionFile fs (resolveAll fss d0)).value = some p →
      ∃ t parsed, fs = .present t parsed ∧
        (getVersionFile fs (resolveAll fss d0)).self.m_loadedVersionFileTimestamp = some t ∧
        (getVersionFile fs (resolveAll fss d0)).self.m_loadedVersionFile = some p) :=
  ⟨fun p h => resolveAll_cache d0 hFresh fss p h,
    fun fs p h => getVersionFile_some fs (resolveAll fss d0) p h⟩

/-- C12 on the sample descriptor after "parsed at 5, missing, parsed at 7":
the cached patch is the tagged parse and the timestamp is 7. -/
theorem C12_cache_validity_witness :
    IsFresh (sampleVersion .Local) ∧
    (resolveAll [.present 5 (.ok samplePatch), .absent, .present 7 (.ok samplePatch)]
      (sampleVersion .Local)).m_loadedVersionFile = some (tagLoaded samplePatch) ∧
    ∃ t vf, FileState.present t (.ok vf) ∈
        [FileState.present 5 (.ok samplePatch), .absent, .present 7 (.ok samplePatch)] ∧
      tagLoaded samplePatch = tagLoaded vf ∧
      (resolveAll [.present 5 (.ok samplePatch), .absent, .present 7 (.ok samplePatch)]
        (sampleVersion .Local)).m_loadedVersionFileTimestamp = some t := by
  have hc : (resolveAll [.present 5 (.ok samplePatch), .absent, .present 7 (.ok samplePatch)]
      (sampleVersion .Local)).m_loadedVersionFile = some (tagLoaded samplePatch) := by
    simp [resolveAll, getVersionFile, sampleVersion, addProblem]
  exact ⟨⟨rfl, rfl⟩, hc,
    (C12_cache_validity (sampleVersion .Local)
      [.present 5 (.ok samplePatch), .absent, .present 7 (.ok samplePatch)] ⟨rfl, rfl⟩).1 _ hc⟩

/-- C13: after a resolver call the problem list is empty, or the one Warning
of the missing file, or one Error of the failed parse; list and severity are
the same whatever problem list and severity the descriptor had before; and
the severity is the maximum severity of the entries of the list. -/
theorem C13_problems_recomputed (fs : FileState) (d : MinecraftVersion)
    (problems : List PatchProblem) (severity : ProblemSeverity) :
    ((getVersionFile fs d).self.m_problems = [] ∨
      (getVersionFile fs d).self.m_problems = [⟨.PROBLEM_WARNING, missingFileText⟩] ∨
      ∃ cause, (getVersionFile fs d).self.m_problems =
        [⟨.PROBLEM_ERROR, unreadableFileText ++ cause⟩]) ∧
    (getVersionFile fs { d with m_problems := problems, m_problemSeverity := severity }).self.m_problems
      = (getVersionFile fs d).self.m_problems ∧
    (getVersionFile fs
        { d with m_problems := problems, m_problemSeverity := severity }).self.m_problemSeverity
      = (getVersionFile fs d).self.m_problemSeverity ∧
    (getVersionFile fs d).self.m_problemSeverity =
      maxSeverity (getVersionFile fs d).self.m_problems := by
  cases fs with
  | absent =>
    rw [(getVersionFile_absent d).2.1, (getVersionFile_absent _).2.1]
    simp [maxSeverity, ProblemSeverity.rank]
  | present t parsed =>
    by_cases hts : d.m_loadedVersionFileTimestamp = some t
    · rw [(getVersionFile_unchanged d t parsed hts).2.1,
        (getVersionFile_unchanged { d with m_problems := problems, m_problemSeverity := severity }
          t parsed hts).2.1]
      simp [maxSeverity]
    · cases parsed with
      | ok vf =>
        rw [(getVersionFile_parsed d t vf hts).2.1,
          (getVersionFile_parsed { d with m_problems := problems, m_problemSeverity := severity }
            t vf hts).2.1]
        simp [maxSeverity]
      | error cause =>
        rw [(getVersionFile_failed d t cause hts).2.1,
          (getVersionFile_failed { d with m_problems := problems, m_problemSeverity := severity }
            t cause hts).2.1]
        simp [maxSeverity, ProblemSeverity.rank]

/-- C13 on the sample descriptor carrying a stale Error: after a call with
the file missing only the Warning of that call is left. -/
theorem C13_problems_recomputed_witness :
    (getVersionFile .absent
      { sampleVersion .Local with
        m_problems := [⟨.PROBLEM_ERROR, "stale"⟩]
        m_problemSeverity := .PROBLEM_ERROR }).self.m_problems =
      [⟨.PROBLEM_WARNING, missingFileText⟩] := by
  rw [(C13_problems_recomputed .absent (sampleVersion .Local) [⟨.PROBLEM_ERROR, "stale"⟩]
    .PROBLEM_ERROR).2.1]
  exact (getVersionFile_absent _).2.1 ▸ rfl

/-- C14: `isCustomizable` is true if and only if the source is Local or
Remote, it is false for Builtin and for every other source, and it is the same
for two descriptors of the same source whatever their cache state (it takes no
file-system state at all). -/
theorem C14_isCustomizable (d : MinecraftVersion) :
    (isCustomizable d = true ↔
      d.m_versionSource = .Local ∨ d.m_versionSource = .Remote) ∧
    (d.m_versionSource = .Builtin → isCustomizable d = false) ∧
    (d.m_versionSource ≠ .Local → d.m_versionSource ≠ .Remote → isCustomizable d = false) ∧
    (∀ other : MinecraftVersion, other.m_versionSource = d.m_versionSource →
      isCustomizable other = isCustomizable d) := by
  refine ⟨?_, ?_, ?_, ?_⟩
  · cases h : d.m_versionSource <;> simp [isCustomizable, h]
  · intro h
    simp [isCustomizable, h]
  · intro h1 h2
    cases h : d.m_versionSource <;> simp_all [isCustomizable]
  · intro other h
    simp [isCustomizable, h]

/-- C14 on the sample descriptors: true for Local and Remote, false for
Builtin and Custom, also when a patch-less stale cache state is present. -/
theorem C14_isCustomizable_witness :
    isCustomizable (sampleVersion .Local) = true ∧
    isCustomizable (sampleVersion .Remote) = true ∧
    isCustomizable (sampleVersion .Builtin) = false ∧
    isCustomizable (sampleVersion .Custom) = false ∧
    isCustomizable (staleVersion .Local) = isCustomizable (sampleVersion .Local) :=
  ⟨(C14_isCustomizable (sampleVersion .Local)).1.mpr (Or.inl rfl),
    (C14_isCustomizable (sampleVersion .Remote)).1.mpr (Or.inr rfl),
    (C14_isCustomizable (sampleVersion .Builtin)).2.1 rfl,
    (C14_isCustomizable (sampleVersion .Custom)).2.2.1 (by decide) (by decide),
    (C14_isCustomizable (sampleVersion .Local)).2.2.2 (staleVersion .Local)
      (by rw [staleVersion_eq])⟩

/-- C15: `isCustom` is true if and only if the source is none of Builtin,
Local and Remote; over the four sources that is exactly Custom; and no
descriptor is both custom and customizable. -/
theorem C15_isCustom (d : MinecraftVersion) :
    (isCustom d = true ↔
      d.m_versionSource ≠ .Builtin ∧ d.m_versionSource ≠ .Local ∧
        d.m_versionSource ≠ .Remote) ∧
    (isCustom d = true ↔ d.m_versionSource = .Custom) ∧
    ¬ (isCustom d = true ∧ isCustomizable d = true) := by
  cases h : d.m_versionSource <;> simp [isCustom, isCustomizable, h]

/-- C16: `hasUpdate` is true exactly when the source is Remote, or Local with
the upstream-update flag set; `needsUpdate` is true exactly when the source is
Remote or `hasUpdate` is true. A Remote descriptor needs an update whatever
the flag, a Local one exactly when flagged, a Builtin or Custom one never. -/
theorem C16_update_classification (d : MinecraftVersion) :
    (hasUpdate d = true ↔
      d.m_versionSource = .Remote ∨
        (d.m_versionSource = .Local ∧ d.upstreamUpdate = true)) ∧
    (needsUpdate d = true ↔ d.m_versionSource = .Remote ∨ hasUpdate d = true) ∧
    (d.m_versionSource = .Remote → needsUpdate d = true) ∧
    (d.m_versionSource = .Local → needsUpdate d = d.upstreamUpdate) ∧
    (d.m_versionSource = .Builtin → needsUpdate d = false ∧ hasUpdate d = false) ∧
    (d.m_versionSource = .Custom → needsUpdate d = false ∧ hasUpdate d = false) := by
  cases h : d.m_versionSource <;> simp [needsUpdate, hasUpdate, h]

/-- C16 on flagged sample descriptors: Builtin and Custom do not need an
update although the flag is set, Local does, and Remote does without it. -/
theorem C16_update_classification_witness :
    needsUpdate { sampleVersion .Builtin with upstreamUpdate := true } = false ∧
    needsUpdate { sampleVersion .Custom with upstreamUpdate := true } = false ∧
    needsUpdate { sampleVersion .Local with upstreamUpdate := true } = true ∧
    needsUpdate (sampleVersion .Remote) = true :=
  ⟨((C16_update_classification { sampleVersion .Builtin with upstreamUpdate := true }).2.2.2.2.1
      rfl).1,
    ((C16_update_classification { sampleVersion .Custom with upstreamUpdate := true }).2.2.2.2.2
      rfl).1,
    (C16_update_classification { sampleVersion .Local with upstreamUpdate := true }).2.2.2.1 rfl,
    (C16_update_classification (sampleVersion .Remote)).2.2.1 rfl⟩

/-- C17: `usesLegacyLauncher` is true if and only if the trait set has the key
`legacyLaunch` or the key `aplhaLaunch`; it is false for every trait set with
neither, whatever else it holds. -/
theorem C17_usesLegacyLauncher (d : MinecraftVersion) :
    (usesLegacyLauncher d = true ↔
      "legacyLaunch" ∈ d.m_traits ∨ "aplhaLaunch" ∈ d.m_traits) ∧
    ("legacyLaunch" ∉ d.m_traits → "aplhaLaunch" ∉ d.m_traits →
      usesLegacyLauncher d = false) := by
  refine ⟨by simp [usesLegacyLauncher], ?_⟩
  intro h1 h2
  simp [usesLegacyLauncher, h1, h2]

/-- C17 on sample trait sets: each marker alone is recognised, near-miss
spellings are not. -/
theorem C17_usesLegacyLauncher_witness :
    usesLegacyLauncher (sampleVersion .Builtin) = true ∧
    usesLegacyLauncher { sampleVersion .Builtin with m_traits := ["aplhaLaunch"] } = true ∧
    usesLegacyLauncher { sampleVersion .Builtin with
      m_traits := ["alphaLaunch", "legacylaunch", "legacyLaunch ", "LegacyLaunch"] } = false :=
  ⟨(C17_usesLegacyLauncher (sampleVersion .Builtin)).1.mpr (Or.inl (by decide)),
    (C17_usesLegacyLauncher { sampleVersion .Builtin with m_traits := ["aplhaLaunch"] }).1.mpr
      (Or.inr (by decide)),
    (C17_usesLegacyLauncher { sampleVersion .Builtin with
      m_traits := ["alphaLaunch", "legacylaunch", "legacyLaunch ", "LegacyLaunch"] }).2
      (by decide) (by decide)⟩

/-- C18: `getUrl` returns the explicit URL unchanged when it is not empty;
when it is empty it returns `http://` followed by the fixed prefix, the
descriptor id, `/`, the descriptor id and `.json`, so that two descriptors
with the same id and no explicit URL get the same URL. -/
theorem C18_getUrl (AWS_DOWNLOAD_VERSIONS : String) (d : MinecraftVersion) :
    (d.m_versionFileURL ≠ "" → getUrl AWS_DOWNLOAD_VERSIONS d = d.m_versionFileURL) ∧
    (d.m_versionFileURL = "" →
      getUrl AWS_DOWNLOAD_VERSIONS d =
        "http://" ++ AWS_DOWNLOAD_VERSIONS ++ d.m_descriptor ++ "/" ++ d.m_descriptor ++
          ".json") ∧
    (∀ other : MinecraftVersion, d.m_versionFileURL = "" → other.m_versionFileURL = "" →
      other.m_descriptor = d.m_descriptor →
      getUrl AWS_DOWNLOAD_VERSIONS other = getUrl AWS_DOWNLOAD_VERSIONS d) := by
  refine ⟨?_, ?_, ?_⟩
  · intro h
    simp [getUrl, h]
  · intro h
    simp [getUrl, h]
  · intro other h1 h2 h3
    simp [getUrl, h1, h2, h3]

/-- C18 on the sample descriptor: the fallback for id `1.12.2`, and an
explicit URL returned as it is. -/
theorem C18_getUrl_witness :
    getUrl "s3.amazonaws.com/Minecraft.Download/versions/" (sampleVersion .Remote) =
      "http://s3.amazonaws.com/Minecraft.Download/versions/1.12.2/1.12.2.json" ∧
    getUrl "s3.amazonaws.com/Minecraft.Download/versions/"
      { sampleVersion .Remote with m_versionFileURL := "https://example.org/v.json" } =
      "https://example.org/v.json" :=
  ⟨(C18_getUrl "s3.amazonaws.com/Minecraft.Download/versions/" (sampleVersion .Remote)).2.1 rfl,
    (C18_getUrl "s3.amazonaws.com/Minecraft.Download/versions/"
      { sampleVersion .Remote with m_versionFileURL := "https://example.org/v.json" }).1
      (by decide)⟩

/-- C19: `needsUpdate` and `hasUpdate` agree on every descriptor, for every
source and every value of the upstream-update flag. -/
theorem C19_needsUpdate_eq_hasUpdate (d : MinecraftVersion) :
    needsUpdate d = hasUpdate d := by
  unfold needsUpdate hasUpdate
  cases d.m_versionSource <;> cases d.upstreamUpdate <;> rfl

end MultiMC
